import Mathlib

/-!
Verification of the artwork-creation pipeline of the arts-market API.

The definitions below are a shallow embedding of the Go source, chiefly
`modules/artwork-management/handlers/artworks/create_art_handler.go` and the
image-validation service (`ValidateImageFile`).  Pure helpers become Lean
functions; the database transaction becomes explicit state passing on a `DB`
record; the concurrent fan-out/fan-in of sub-resource units is modelled twice:
as a sequential outcome computation (for final-state claims) and as a small
operational semantics of the error channel (for ordering/blocking claims).
-/

set_option maxHeartbeats 1000000

namespace ArtsMarket

/-! ## UUID parsing (`github.com/google/uuid`, `uuid.Parse`) -/

/-- A UUID is 16 bytes.  `uuid.Parse` accepts the canonical 36-character form
`xxxxxxxx-xxxx-xxxx-xxxx-xxxxxxxxxxxx`, the same wrapped in braces, the
`urn:uuid:` prefixed form, and the raw 32-hex-digit form. -/
abbrev UUID := List Nat

/-- Value of one hexadecimal digit, case-insensitive (`xtob` digit lookup). -/
def xdigit (c : Char) : Option Nat :=
  if '0' ≤ c ∧ c ≤ '9' then some (c.toNat - '0'.toNat)
  else if 'a' ≤ c ∧ c ≤ 'f' then some (c.toNat - 'a'.toNat + 10)
  else if 'A' ≤ c ∧ c ≤ 'F' then some (c.toNat - 'A'.toNat + 10)
  else none

/-- Model of `xtob`: two hex characters to one byte. -/
def xtob (c1 c2 : Char) : Option Nat :=
  match xdigit c1, xdigit c2 with
  | some h, some l => some (16 * h + l)
  | _, _ => none

/-- Decode an even-length run of hex characters into bytes. -/
def parseHexPairs : List Char → Option (List Nat)
  | [] => some []
  | c1 :: c2 :: rest =>
    match xtob c1 c2, parseHexPairs rest with
    | some b, some bs => some (b :: bs)
    | _, _ => none
  | _ => none

/-- Parse the canonical 36-character UUID form: hyphens at offsets 8, 13, 18
and 23, hex digits everywhere else. -/
def parseCanonical (cs : List Char) : Option UUID :=
  if cs.length = 36 ∧ cs.get? 8 = some '-' ∧ cs.get? 13 = some '-' ∧
      cs.get? 18 = some '-' ∧ cs.get? 23 = some '-' then
    parseHexPairs ((cs.enum.filter
      (fun p => p.1 ≠ 8 ∧ p.1 ≠ 13 ∧ p.1 ≠ 18 ∧ p.1 ≠ 23)).map Prod.snd)
  else none

/-- Model of `uuid.Parse`.  Dispatches on length exactly as the Go library
does: 36 (canonical), 45 (`urn:uuid:` + canonical, prefix case-insensitive),
38 (braced canonical), 32 (raw hex); anything else is an error (`none`). -/
def uuidParse (s : String) : Option UUID :=
  let cs := s.toList
  if cs.length = 36 then parseCanonical cs
  else if cs.length = 36 + 9 then
    if (cs.take 9).map Char.toLower = "urn:uuid:".toList then
      parseCanonical (cs.drop 9)
    else none
  else if cs.length = 36 + 2 then
    match cs with
    | '{' :: rest =>
      if rest.getLast? = some '}' then parseCanonical rest.dropLast else none
    | _ => none
  else if cs.length = 32 then parseHexPairs cs
  else none

/-- Hex character of a nibble (lower case), for `uuid.String()`. -/
def hexChar (n : Nat) : Char :=
  if n < 10 then Char.ofNat ('0'.toNat + n) else Char.ofNat ('a'.toNat + n - 10)

/-- Byte to two hex characters. -/
def byteHex (b : Nat) : List Char := [hexChar (b / 16), hexChar (b % 16)]

/-- Model of `uuid.String()`: canonical lower-case rendering of 16 bytes. -/
def uuidString (u : UUID) : String :=
  let grp (l : List Nat) : String := String.mk (l.map byteHex).flatten
  grp (u.take 4) ++ "-" ++ grp ((u.drop 4).take 2) ++ "-" ++
    grp ((u.drop 6).take 2) ++ "-" ++ grp ((u.drop 8).take 2) ++ "-" ++
    grp (u.drop 10)

/-! ## Go standard-library helpers used by the handler -/

/-- Model of `strings.Split(s, ",")` (single-character separator).  Note that
Go's `Split` on the empty string returns `[""]`, a one-element list. -/
def splitCharsOn (sep : Char) : List Char → List (List Char)
  | [] => [[]]
  | c :: rest =>
    let r := splitCharsOn sep rest
    if c = sep then [] :: r
    else
      match r with
      | [] => [[c]]
      | h :: t => (c :: h) :: t

/-- Model of `strings.Split(s, ",")`. -/
def goSplitComma (s : String) : List String :=
  (splitCharsOn ',' s.toList).map fun cs => String.mk cs

/-- Is `c` a decimal digit. -/
def isDig (c : Char) : Bool := '0' ≤ c ∧ c ≤ '9'

/-- Decimal digit value. -/
def digVal (c : Char) : Nat := c.toNat - '0'.toNat

/-- Accumulate decimal digits; `none` on any non-digit character. -/
def decDigitsAux (acc : Nat) : List Char → Option Nat
  | [] => some acc
  | c :: rest => if isDig c then decDigitsAux (10 * acc + digVal c) rest else none

/-- Model of `strconv.Atoi` (= `ParseInt(s, 10, 0)` with 64-bit `int`): an
optional sign followed by at least one decimal digit, within `int64` range;
everything else (including empty input) is an error (`none`). -/
def goAtoi (s : String) : Option Int :=
  let body (neg : Bool) (cs : List Char) : Option Int :=
    match cs with
    | [] => none
    | _ =>
      match decDigitsAux 0 cs with
      | none => none
      | some n =>
        if neg then if n ≤ 2 ^ 63 then some (-(n : Int)) else none
        else if n ≤ 2 ^ 63 - 1 then some (n : Int) else none
  match s.toList with
  | '+' :: rest => body false rest
  | '-' :: rest => body true rest
  | cs => body false cs

/-- Gregorian leap year. -/
def isLeap (y : Nat) : Bool := y % 4 = 0 ∧ (y % 100 ≠ 0 ∨ y % 400 = 0)

/-- Days in a month, as Go's `time` package validates them. -/
def daysInMonth (y m : Nat) : Nat :=
  if m = 2 then (if isLeap y then 29 else 28)
  else if m = 4 ∨ m = 6 ∨ m = 9 ∨ m = 11 then 30
  else 31

/-- Model of `time.Parse("2006-01-02", s)`: exactly `dddd-dd-dd` with the
month in 1..12 and the day in range for that month/year.  Returns the
(year, month, day) triple on success. -/
def goParseDate (s : String) : Option (Nat × Nat × Nat) :=
  match s.toList with
  | [y1, y2, y3, y4, h1, m1, m2, h2, d1, d2] =>
    if h1 = '-' ∧ h2 = '-' ∧ ([y1, y2, y3, y4, m1, m2, d1, d2].all isDig) then
      let y := digVal y1 * 1000 + digVal y2 * 100 + digVal y3 * 10 + digVal y4
      let m := digVal m1 * 10 + digVal m2
      let d := digVal d1 * 10 + digVal d2
      if 1 ≤ m ∧ m ≤ 12 ∧ 1 ≤ d ∧ d ≤ daysInMonth y m then some (y, m, d)
      else none
    else none
  | _ => none

/-- Model of `strings.HasPrefix` (list-level prefix test). -/
def goHasPfx (s pre : String) : Bool := pre.toList.isPrefixOf s.toList

/-- Model of `strings.ToLower` (character-wise lowering). -/
def goToLower (s : String) : String := String.mk (s.toList.map Char.toLower)

/-! ## Multipart form and image file model -/

/-- One multipart file part (`*multipart.FileHeader`): what the pipeline reads
from it is its size and its `Content-Type` header. -/
structure FileHeader where
  filename : String
  size : Int
  contentType : String
deriving DecidableEq, Repr

/-- A fiber error: HTTP status and message (`fiber.NewError`). -/
structure FiberError where
  status : Nat
  message : String
deriving DecidableEq, Repr

/-- Model of `services.ValidateImageFile` (image-validation service): rejects a file
larger than 5MB (`5<<20` bytes) or whose `Content-Type` header does not start
with `"image/"`.  There is no other check. -/
def ValidateImageFile (f : FileHeader) : Except FiberError Unit :=
  if f.size > 5242880 then
    .error ⟨400, "Image too large, maximum size is 5MB"⟩
  else if ¬ (goHasPfx f.contentType "image/") then
    .error ⟨400, "Only image files are allowed"⟩
  else .ok ()

/-- A parsed multipart form (`*multipart.Form`): `value` models the
`map[string][]string` of text fields, `file` the `map[string][]*FileHeader`
of file fields; a missing key reads as the empty list, as a nil Go slice
does. -/
structure Form where
  value : List (String × List String)
  file : List (String × List FileHeader)
deriving Repr

/-- Read of `form.Value[k]` (missing key ↦ empty slice). -/
def Form.getValue (f : Form) (k : String) : List String :=
  (f.value.lookup k).getD []

/-- Read of `form.File[k]` (missing key ↦ empty slice). -/
def Form.getFile (f : Form) (k : String) : List FileHeader :=
  (f.file.lookup k).getD []

/-! ## Request normalizer (`parseFormData`, `validateArtworkRequest`) -/

/-- The `CreateArtworkRequest` struct, zero-valued as a fresh Go struct.  `weight` and
`price` are Go `float64` fields; their values are opaque to this pipeline, so
they are modelled as rationals.  `attributes` holds `(id, value)` pairs
(`AttributeInput`). -/
structure CreateArtworkRequest where
  title : String := ""
  description : String := ""
  typ : String := ""
  categories : List String := []
  tags : List String := []
  collectionID : String := ""
  dimensions : String := ""
  weight : Rat := 0
  isFramed : Bool := false
  condition : String := ""
  creationDate : String := ""
  mediumID : String := ""
  techniqueID : String := ""
  price : Rat := 0
  isForSale : Bool := false
  licenseType : String := ""
  licenseDetails : String := ""
  editionNumber : Int := 0
  totalEditions : Int := 0
  attributes : List (String × String) := []
deriving DecidableEq, Repr

/-- The `attributes[i][id]` / `attributes[i][value]` scan of `parseFormData`:
collect ascending indices until the id key for an index is missing or empty.
The Go loop is unbounded; since each present index contributes a distinct key
to the form, `form.value.length + 1` fuel always suffices. -/
def collectAttributes (form : Form) : Nat → Nat → List (String × String)
  | 0, _ => []
  | fuel + 1, i =>
    let idKey := "attributes[" ++ toString i ++ "][id]"
    let valueKey := "attributes[" ++ toString i ++ "][value]"
    match form.getValue idKey with
    | [] => []
    | id :: _ =>
      let value := match form.getValue valueKey with
        | v :: _ => v
        | [] => ""
      (id, value) :: collectAttributes form fuel (i + 1)

/-- Model of `parseFormData`: fills a zero-valued `CreateArtworkRequest` from the form.
String fields copy the first value when present; `categories`/`tags` are
comma-split; numeric fields are assigned only when the coercion succeeds
(`err == nil`), otherwise the zero value silently stands; booleans compare the
lower-cased value against `"true"`.  `pf` is the external
`strconv.ParseFloat(·, 64)`.  The Go code assigns each struct field from its
own form key, one `if` block per field, so the mutations are independent and
the struct is assembled here as one literal.  The Go function's only error
`return` statement is the final `return nil`: it can never fail. -/
def parseFormData (pf : String → Option Rat) (form : Form) :
    Except String CreateArtworkRequest :=
  .ok
    { title := match form.getValue "title" with
        | t :: _ => t | [] => ""
      description := match form.getValue "description" with
        | d :: _ => d | [] => ""
      typ := match form.getValue "type" with
        | t :: _ => t | [] => ""
      collectionID := match form.getValue "collection_id" with
        | c :: _ => c | [] => ""
      dimensions := match form.getValue "dimensions" with
        | d :: _ => d | [] => ""
      condition := match form.getValue "condition" with
        | c :: _ => c | [] => ""
      creationDate := match form.getValue "creation_date" with
        | c :: _ => c | [] => ""
      mediumID := match form.getValue "medium_id" with
        | m :: _ => m | [] => ""
      techniqueID := match form.getValue "technique_id" with
        | t :: _ => t | [] => ""
      licenseType := match form.getValue "license_type" with
        | l :: _ => l | [] => ""
      licenseDetails := match form.getValue "license_details" with
        | l :: _ => l | [] => ""
      categories := match form.getValue "categories" with
        | c :: _ => goSplitComma c | [] => []
      tags := match form.getValue "tags" with
        | t :: _ => goSplitComma t | [] => []
      weight := match form.getValue "weight" with
        | w :: _ =>
          match pf w with
          | some x => x
          | none => 0
        | [] => 0
      price := match form.getValue "price" with
        | p :: _ =>
          match pf p with
          | some x => x
          | none => 0
        | [] => 0
      isForSale := match form.getValue "is_for_sale" with
        | v :: _ => goToLower v = "true" | [] => false
      isFramed := match form.getValue "is_framed" with
        | v :: _ => goToLower v = "true" | [] => false
      editionNumber := match form.getValue "edition_number" with
        | e :: _ =>
          match goAtoi e with
          | some n => n
          | none => 0
        | [] => 0
      totalEditions := match form.getValue "total_editions" with
        | e :: _ =>
          match goAtoi e with
          | some n => n
          | none => 0
        | [] => 0
      attributes := collectAttributes form (form.value.length + 1) 0 }

/-- Model of `validateArtworkRequest`: title and type must be non-empty; a non-empty
creation date must parse under `2006-01-02`. -/
def validateArtworkRequest (req : CreateArtworkRequest) : Except String Unit :=
  if req.title = "" then .error "title is required"
  else if req.typ = "" then .error "type is required"
  else if req.creationDate ≠ "" then
    match goParseDate req.creationDate with
    | none => .error "invalid creation date format, use YYYY-MM-DD"
    | some _ => .ok ()
  else .ok ()

/-! ## Row types and database state -/

/-- The `Artwork` root row, the fields this pipeline writes.  `status` is
filled by the `BeforeCreate` hook (defaults `pending`); timestamps and the
view counter are irrelevant to the pipeline and omitted. -/
structure ArtworkRow where
  id : UUID
  userId : UUID
  collectionId : Option UUID
  title : String
  description : String
  creationDate : Option (Nat × Nat × Nat)
  price : Rat
  isForSale : Bool
  status : String
  typ : String
  dimensions : String
  weight : Rat
  isFramed : Bool
  condition : String
  mediumId : Option UUID
  techniqueId : Option UUID
  licenseType : String
  licenseDetails : String
deriving DecidableEq, Repr

/-- An `ArtworkTag` association row. -/
structure ArtworkTagRow where
  artworkId : UUID
  tagId : UUID
deriving DecidableEq, Repr

/-- An `ArtworkCategory` association row. -/
structure ArtworkCategoryRow where
  artworkId : UUID
  categoryId : UUID
deriving DecidableEq, Repr

/-- An `ArtworkAttribute` association row. -/
structure ArtworkAttributeRow where
  artworkId : UUID
  attributeId : UUID
  value : String
deriving DecidableEq, Repr

/-- An `ArtworkImage` association row. -/
structure ArtworkImageRow where
  artworkId : UUID
  imageURL : String
  isPrimary : Bool
deriving DecidableEq, Repr

/-- An `Edition` row. -/
structure EditionRow where
  artworkId : UUID
  editionNumber : Int
  totalEditions : Int
  status : String
deriving DecidableEq, Repr

/-- The relational state the pipeline touches.  `collections` holds
(collection id, owner id) pairs.  A transaction is modelled as a `DB` value
derived from the committed one: commit installs it, rollback discards it. -/
structure DB where
  collections : List (UUID × UUID)
  artworks : List ArtworkRow
  tags : List ArtworkTagRow
  categories : List ArtworkCategoryRow
  attributes : List ArtworkAttributeRow
  images : List ArtworkImageRow
  editions : List EditionRow
deriving DecidableEq, Repr

/-! ## Root entity writer (`parseCollectionID`, `parseUUIDPointer`,
`createArtwork`) -/

/-- Model of `parseCollectionID`: empty string means no collection; a malformed id is
a 400; a parsed id whose (id, owner) count in `collections` is zero is a 403
("Collection does not belong to you"); otherwise the id is returned. -/
def parseCollectionID (db : DB) (collectionIDStr : String) (userID : UUID) :
    Except FiberError (Option UUID) :=
  if collectionIDStr = "" then .ok none
  else
    match uuidParse collectionIDStr with
    | none => .error ⟨400, "Invalid collection ID format"⟩
    | some collectionID =>
      let count := (db.collections.filter
        fun p => p.1 = collectionID ∧ p.2 = userID).length
      if count = 0 then .error ⟨403, "Collection does not belong to you"⟩
      else .ok (some collectionID)

/-- Model of `parseUUIDPointer`: empty string and *any parse failure alike* give a nil
pointer — a malformed medium/technique id is silently dropped, not an
error. -/
def parseUUIDPointer (s : String) : Option UUID :=
  if s = "" then none
  else
    match uuidParse s with
    | none => none
    | some id => some id

/-- Model of `createArtwork`: collection check (inside the open transaction), creation
date re-parse, then the `Artwork` struct assembled exactly as the handler
does, with the `BeforeCreate` id/status hook applied.  `freshId` stands for
the generated `uuid.New()`.  The `tx.Create` call itself is modelled as
always succeeding (the relational store is an assumed-reliable external
collaborator); the caller appends the returned row to the transaction. -/
def createArtwork (db : DB) (freshId : UUID) (userID : UUID)
    (req : CreateArtworkRequest) : Except FiberError ArtworkRow :=
  match parseCollectionID db req.collectionID userID with
  | .error e => .error e
  | .ok collectionID =>
  match (if req.creationDate ≠ "" then
      (match goParseDate req.creationDate with
       | none => Except.error (⟨400, "Invalid creation date format"⟩ : FiberError)
       | some d => Except.ok (some d))
    else Except.ok none : Except FiberError (Option (Nat × Nat × Nat))) with
  | .error e => .error e
  | .ok creationDate =>
  .ok
    { id := freshId
      userId := userID
      collectionId := collectionID
      title := req.title
      description := req.description
      creationDate := creationDate
      price := req.price
      isForSale := req.isForSale
      status := "pending"
      typ := req.typ
      dimensions := req.dimensions
      weight := req.weight
      isFramed := req.isFramed
      condition := req.condition
      mediumId := parseUUIDPointer req.mediumID
      techniqueId := parseUUIDPointer req.techniqueID
      licenseType := req.licenseType
      licenseDetails := req.licenseDetails }

/-! ## Sub-resource units -/

/-- Model of `processEditions`: one row with status `available`. -/
def processEditions (artworkID : UUID) (editionNumber totalEditions : Int) :
    Except String (List EditionRow) :=
  .ok [{ artworkId := artworkID, editionNumber := editionNumber,
         totalEditions := totalEditions, status := "available" }]

/-- Model of `processTags`: parse every tag id left to right; the first malformed id
aborts the whole unit before anything is inserted; otherwise all rows are
bulk-inserted at once. -/
def processTags (artworkID : UUID) : List String → Except String (List ArtworkTagRow)
  | [] => .ok []
  | tagID :: rest =>
    match uuidParse tagID with
    | none => .error ("invalid tag ID format: " ++ tagID)
    | some tagUUID => do
      let rows ← processTags artworkID rest
      .ok ({ artworkId := artworkID, tagId := tagUUID } :: rows)

/-- Model of `processCategories`: same shape as `processTags`. -/
def processCategories (artworkID : UUID) :
    List String → Except String (List ArtworkCategoryRow)
  | [] => .ok []
  | categoryID :: rest =>
    match uuidParse categoryID with
    | none => .error ("invalid category ID format: " ++ categoryID)
    | some categoryUUID => do
      let rows ← processCategories artworkID rest
      .ok ({ artworkId := artworkID, categoryId := categoryUUID } :: rows)

/-- Model of `processAttributes`: same shape, over (id, value) pairs. -/
def processAttributes (artworkID : UUID) :
    List (String × String) → Except String (List ArtworkAttributeRow)
  | [] => .ok []
  | attr :: rest =>
    match uuidParse attr.1 with
    | none => .error ("invalid attribute ID format: " ++ attr.1)
    | some attrID => do
      let rows ← processAttributes artworkID rest
      .ok ({ artworkId := artworkID, attributeId := attrID, value := attr.2 } :: rows)

/-! ## Bounded image-upload worker pool (`uploadImagesConcurrently`,
`processImages`)

The pool enqueues every (index, file) job up front and `min(4, NumCPU)`
workers drain the queue; each job's outcome depends only on its own file, so
the multiset of results is fixed and only the order in which the results
channel delivers them is scheduling-dependent.  That completion order is the
explicit `results`/`sched` parameter below; theorems quantify over all
permutations of the per-job outcomes. -/

/-- One entry of the `results` channel: original index, URL on success,
error otherwise. -/
structure UploadResult where
  index : Nat
  url : String := ""
  err : Option String := none
deriving DecidableEq, Repr

/-- The body of one worker iteration on job `(idx, f)`: validate, then
upload to `artworks/<artwork id>`; upload failures are wrapped as
`failed to upload image: …`. -/
def processJob (upload : FileHeader → String → Except String String)
    (artworkID : UUID) (idx : Nat) (f : FileHeader) : UploadResult :=
  match ValidateImageFile f with
  | .error e => { index := idx, err := some e.message }
  | .ok _ =>
    match upload f ("artworks/" ++ uuidString artworkID) with
    | .error e => { index := idx, err := some ("failed to upload image: " ++ e) }
    | .ok url => { index := idx, url := url }

/-- The per-job outcomes in submission order — what the workers will put on
the results channel, in some scheduling-dependent order. -/
def jobResults (upload : FileHeader → String → Except String String)
    (artworkID : UUID) (files : List FileHeader) : List UploadResult :=
  files.enum.map fun p => processJob upload artworkID p.1 p.2

/-- The drain loop over the results channel: the first result carrying an
error aborts; otherwise `urls[res.index] = res.url`. -/
def drainResults (acc : List String) : List UploadResult → Except String (List String)
  | [] => .ok acc
  | r :: rest =>
    match r.err with
    | some e => .error e
    | none => drainResults (acc.set r.index r.url) rest

/-- Model of `uploadImagesConcurrently`, given the realized delivery order `results`
of the results channel: drain into a `len(files)`-sized url slice. -/
def uploadImagesConcurrently (files : List FileHeader)
    (results : List UploadResult) : Except String (List String) :=
  drainResults (List.replicate files.length "") results

/-- Model of `processImages`: upload, then one `ArtworkImage` row per URL in slice
order, index 0 primary. -/
def processImages (artworkID : UUID) (files : List FileHeader)
    (results : List UploadResult) :
    Except String (List ArtworkImageRow) :=
  match uploadImagesConcurrently files results with
  | .error e => .error e
  | .ok imageURLs =>
    .ok (imageURLs.enum.map fun p =>
      { artworkId := artworkID, imageURL := p.2, isPrimary := p.1 = 0 })

/-! ## The handler pipeline (`CreateArtworkHandler`) -/

/-- Helper `errOf`: the error a unit sends on the error channel, if any. -/
def errOf : Except String α → Option String
  | .ok _ => none
  | .error e => some e

/-- The rows a successful unit has inserted into the transaction. -/
def okRows : Except String (List α) → List α
  | .ok rows => rows
  | .error _ => []

/-- The outcome, in launch order, of every sub-resource unit the handler
launches: editions iff both edition counts are positive, tags/categories/
attributes iff the corresponding list is non-empty, images iff file parts are
present.  At most five units exist; each sends at most one error on the
channel of capacity five. -/
def unitOutcomes (sched : List UploadResult) (artworkID : UUID)
    (req : CreateArtworkRequest) (files : List FileHeader) : List (Option String) :=
  (if req.editionNumber > 0 ∧ req.totalEditions > 0 then
    [errOf (processEditions artworkID req.editionNumber req.totalEditions)]
  else [])
  ++ (if req.tags ≠ [] then [errOf (processTags artworkID req.tags)] else [])
  ++ (if req.categories ≠ [] then
    [errOf (processCategories artworkID req.categories)]
  else [])
  ++ (if req.attributes ≠ [] then
    [errOf (processAttributes artworkID req.attributes)]
  else [])
  ++ (if files ≠ [] then [errOf (processImages artworkID files sched)] else [])

/-- Observable checkpoints of one handler run, in the order the code reaches
them: request validation, `db.Begin()`, the collection-ownership query, the
root `Artwork` insert, and the transaction's final commit or rollback. -/
inductive Ev
  | validateReq
  | beginTx
  | collectionCheck
  | rootInsert
  | commitTx
  | rollbackTx
deriving DecidableEq, Repr

/-- The collection-ownership query runs (inside `createArtwork`) only when a
collection id is present and parses; a malformed id errors before the
query. -/
def collectionCheckEvents (req : CreateArtworkRequest) : List Ev :=
  if req.collectionID = "" then []
  else
    match uuidParse req.collectionID with
    | none => []
    | some _ => [.collectionCheck]

/-- Result of one handler run: final committed database, response, and the
checkpoint trace. -/
structure PipelineResult where
  db : DB
  response : Except FiberError Unit
  trace : List Ev
deriving Repr

/-- Model of `CreateArtworkHandler`, end to end: normalize, validate, begin the
transaction, write the root row, fan out the sub-resource units, then commit
iff no unit reported an error, else roll the whole transaction back.  `pf` is
the external float parser, `upload` the external blob store, `freshId` the
generated artwork id, and `sched` the delivery order of the image results
channel.  The rollback branches return the *initial* `db`: a rollback
discards the root insert and every unit's rows alike. -/
def runCreateArtworkPipeline (pf : String → Option Rat) (freshId : UUID)
    (sched : List UploadResult) (db : DB) (userId : UUID) (form : Form) :
    PipelineResult :=
  match parseFormData pf form with
  | .error e => ⟨db, .error ⟨400, e⟩, []⟩
  | .ok req =>
    match validateArtworkRequest req with
    | .error e => ⟨db, .error ⟨400, e⟩, [.validateReq]⟩
    | .ok _ =>
      match createArtwork db freshId userId req with
      | .error e =>
        ⟨db, .error e,
          [.validateReq, .beginTx] ++ collectionCheckEvents req ++ [.rollbackTx]⟩
      | .ok row =>
        let tx1 : DB := { db with artworks := db.artworks ++ [row] }
        let files := form.getFile "images"
        let outs := unitOutcomes sched freshId req files
        match (outs.filterMap id).head? with
        | some e =>
          ⟨db, .error ⟨500, e⟩,
            [.validateReq, .beginTx] ++ collectionCheckEvents req ++
              [.rootInsert, .rollbackTx]⟩
        | none =>
          let final : DB :=
            { tx1 with
              editions := tx1.editions ++
                (if req.editionNumber > 0 ∧ req.totalEditions > 0 then
                  okRows (processEditions freshId req.editionNumber req.totalEditions)
                else [])
              tags := tx1.tags ++ okRows (processTags freshId req.tags)
              categories := tx1.categories ++
                okRows (processCategories freshId req.categories)
              attributes := tx1.attributes ++
                okRows (processAttributes freshId req.attributes)
              images := tx1.images ++
                (if files ≠ [] then
                  okRows (processImages freshId files sched)
                else []) }
          ⟨final, .ok (),
            [.validateReq, .beginTx] ++ collectionCheckEvents req ++
              [.rootInsert, .commitTx]⟩

/-! ## Operational model of the fan-out / fan-in coordinator

The handler launches one goroutine per unit, each sending at most one error
on `errChan := make(chan error, 5)`, a closer goroutine running
`wg.Wait(); close(errChan)`, and the main goroutine immediately executing
`for err := range errChan { tx.Rollback(); return … }` — the body returns on
the first received value, and the loop ends normally only when the channel is
closed empty.  The model below is parameterized by the launched units'
predetermined outcomes (`units`, as computed by `unitOutcomes`). -/

/-- The `errChan` buffer capacity: `make(chan error, 5)`. -/
def errChanCapacity : Nat := 5

/-- State of one coordinator run: the indices of units still running, the
channel buffer, the histories of sent and received errors, whether the closer
has closed the channel, and what the main goroutine has decided
(`none` = still in the range loop; `some (some e)` = returned with rollback
cause `e`; `some none` = the loop ended on channel close, proceeding to
commit). -/
structure CoordState where
  pending : List Nat
  buffer : List String
  sent : List String
  received : List String
  closed : Bool
  mainDone : Option (Option String)
deriving DecidableEq, Repr

/-- Initial coordinator state: all launched units running, channel empty and
open, main goroutine entering the range loop. -/
def initCoord (units : List (Option String)) : CoordState :=
  { pending := List.range units.length
    buffer := []
    sent := []
    received := []
    closed := false
    mainDone := none }

/-- One interleaving step of the coordinator system.  A failing unit's send
requires buffer space (a send on a full buffered channel blocks); nothing
about the main goroutine's state gates a unit's step — no cancellation is
propagated to units. -/
inductive CoordStep (units : List (Option String)) : CoordState → CoordState → Prop
  | finishOk (s : CoordState) (u : Nat) (hu : u ∈ s.pending)
      (ho : units[u]? = some none) :
      CoordStep units s { s with pending := s.pending.erase u }
  | finishErr (s : CoordState) (u : Nat) (e : String) (hu : u ∈ s.pending)
      (ho : units[u]? = some (some e))
      (hcap : s.buffer.length < errChanCapacity) :
      CoordStep units s
        { s with pending := s.pending.erase u
                 buffer := s.buffer ++ [e]
                 sent := s.sent ++ [e] }
  | closeChan (s : CoordState) (hp : s.pending = []) (hc : s.closed = false) :
      CoordStep units s { s with closed := true }
  | mainRecv (s : CoordState) (e : String) (rest : List String)
      (hm : s.mainDone = none) (hb : s.buffer = e :: rest) :
      CoordStep units s
        { s with mainDone := some (some e)
                 received := s.received ++ [e]
                 buffer := rest }
  | mainClose (s : CoordState) (hm : s.mainDone = none) (hb : s.buffer = [])
      (hc : s.closed = true) :
      CoordStep units s { s with mainDone := some none }

/-- Reachability from the initial coordinator state. -/
inductive CoordReach (units : List (Option String)) : CoordState → Prop
  | init : CoordReach units (initCoord units)
  | step {s t : CoordState} : CoordReach units s → CoordStep units s t →
      CoordReach units t

/-- The inductive invariant of the coordinator system. -/
def CoordInv (units : List (Option String)) (s : CoordState) : Prop :=
  s.pending.Nodup ∧
  (∀ u ∈ s.pending, u < units.length) ∧
  s.sent.length + s.pending.length ≤ units.length ∧
  s.sent = s.received ++ s.buffer ∧
  (s.mainDone = none → s.received = []) ∧
  (s.mainDone = some none → s.received = []) ∧
  (∀ e, s.mainDone = some (some e) → s.received = [e])

/-! ## Generic helpers -/

instance {ε α : Type} [DecidableEq ε] [DecidableEq α] :
    DecidableEq (Except ε α) := fun a b =>
  match a, b with
  | .ok x, .ok y => decidable_of_iff (x = y) (by simp)
  | .error e, .error f => decidable_of_iff (e = f) (by simp)
  | .ok _, .error _ => isFalse (by simp)
  | .error _, .ok _ => isFalse (by simp)

/-- The reassembled rows of a fully successful image batch, written from the
spec's words: one row per submitted file, in submission order, carrying that
file's upload url, with exactly the index-0 row primary. -/
def specOrderedImageRows (upload : FileHeader → String → Except String String)
    (artworkID : UUID) (files : List FileHeader) : List ArtworkImageRow :=
  files.enum.map fun p =>
    { artworkId := artworkID
      imageURL := (processJob upload artworkID p.1 p.2).url
      isPrimary := p.1 = 0 }

/-! ## Shared concrete example data -/

/-- A caller identity. -/
def exUser : UUID := List.replicate 16 1

/-- The generated artwork id of the example runs. -/
def exFresh : UUID := List.replicate 16 2

/-- A float parser that accepts nothing (the float fields play no role in the
example runs). -/
def noFloat : String → Option Rat := fun _ => none

/-- An empty database. -/
def emptyDB : DB := ⟨[], [], [], [], [], [], []⟩

/-- A well-formed UUID string; its bytes are sixteen `0x11`. -/
def uuidA : String := "11111111-1111-1111-1111-111111111111"

/-- A second well-formed UUID string. -/
def uuidB : String := "22222222-2222-2222-2222-222222222222"

/-! ## C6 — malformed medium/technique ids -/

/-- A request whose medium and technique ids are both malformed. -/
def reqC6m : CreateArtworkRequest :=
  { title := "Sunset", typ := "digital", mediumID := "not-a-uuid",
    techniqueID := "also-not-a-uuid" }

/-- The example form of the C6 run: a valid minimal request whose `medium_id`
is not a UUID. -/
def formC6 : Form :=
  ⟨[("title", ["Sunset"]), ("type", ["digital"]), ("medium_id", ["not-a-uuid"])], []⟩

/-- The two files of the C3 witness run. -/
def exFiles : List FileHeader :=
  [⟨"a.png", 100, "image/png"⟩, ⟨"b.png", 200, "image/jpeg"⟩]

/-- A blob store that succeeds on every upload. -/
def exUpload : FileHeader → String → Except String String :=
  fun f _ => .ok ("https://cdn.example/" ++ f.filename)

/-- A delivery order that reverses completion: worker results come back
last-submitted-first. -/
def exResultsRev : List UploadResult := (jobResults exUpload exFresh exFiles).reverse

/-- The C8 witness form: every numeric/boolean field present but
uncoercible. -/
def formC8 : Form :=
  ⟨[("title", ["Sunset"]), ("type", ["digital"]), ("weight", ["heavy"]),
    ("price", ["cheap"]), ("edition_number", ["x1"]), ("total_editions", ["y"]),
    ("is_for_sale", ["yes"]), ("is_framed", ["1"])], []⟩

/-- A request that launches exactly one unit (one valid tag). -/
def reqOneTag : CreateArtworkRequest :=
  { title := "Sunset", typ := "digital", tags := [uuidA] }

/-! ## C5 — coordinator does not wait before draining -/

/-- The request of the C5 scenario: a tag unit that fails (malformed id) and
a category unit that succeeds. -/
def reqC5 : CreateArtworkRequest :=
  { title := "Sunset", typ := "digital", tags := ["not-a-uuid"],
    categories := [uuidA] }

/-- The launched-unit outcomes of the C5 scenario. -/
def unitsC5 : List (Option String) := unitOutcomes [] exFresh reqC5 []

/-- The error the failing tag unit sends. -/
def tagErrC5 : String := "invalid tag ID format: not-a-uuid"

/-- The database owning the collection of the C4 run. -/
def dbC4 : DB :=
  { collections := [(List.replicate 16 17, exUser)], artworks := [], tags := [],
    categories := [], attributes := [], images := [], editions := [] }

/-- The C4 form: a valid minimal request referencing that collection. -/
def formC4 : Form :=
  ⟨[("title", ["Sunset"]), ("type", ["digital"]), ("collection_id", [uuidA])], []⟩

/-! ## C1 — a failing unit rolls the whole transaction back to the root -/

/-- No row of any table references (or is) the given artwork id. -/
def noTraceOf (db : DB) (aid : UUID) : Prop :=
  (∀ a ∈ db.artworks, a.id ≠ aid) ∧
  (∀ t ∈ db.tags, t.artworkId ≠ aid) ∧
  (∀ c ∈ db.categories, c.artworkId ≠ aid) ∧
  (∀ x ∈ db.attributes, x.artworkId ≠ aid) ∧
  (∀ i ∈ db.images, i.artworkId ≠ aid) ∧
  (∀ e ∈ db.editions, e.artworkId ≠ aid)

instance (db : DB) (aid : UUID) : Decidable (noTraceOf db aid) := by
  unfold noTraceOf
  exact inferInstance

/-- The C1 witness form: a valid minimal request whose single tag id is
malformed, so the tag unit fails. -/
def formC1 : Form :=
  ⟨[("title", ["Sunset"]), ("type", ["digital"]), ("tags", ["not-a-uuid"])], []⟩

/-- The normalized C1 witness request. -/
def reqC1 : CreateArtworkRequest :=
  { title := "Sunset", typ := "digital", tags := ["not-a-uuid"] }

/-- The root row the C1/C10 witness runs would have inserted. -/
def rowC1 : ArtworkRow :=
  { id := exFresh, userId := exUser, collectionId := none, title := "Sunset",
    description := "", creationDate := none, price := 0, isForSale := false,
    status := "pending", typ := "digital", dimensions := "", weight := 0,
    isFramed := false, condition := "", mediumId := none, techniqueId := none,
    licenseType := "", licenseDetails := "" }

/-! ## C10 — present-but-empty tags/categories field -/

/-- The C10 witness request: tags field present but holding the empty
string. -/
def reqC10 : CreateArtworkRequest :=
  { title := "Sunset", typ := "digital", tags := [""] }

/-- The C10 witness form for the tags case. -/
def formC10 : Form :=
  ⟨[("title", ["Sunset"]), ("type", ["digital"]), ("tags", [""])], []⟩

/-- The C10 witness request: categories field present but holding the empty
string. -/
def reqC10c : CreateArtworkRequest :=
  { title := "Sunset", typ := "digital", categories := [""] }

/-- The C10 witness form for the categories case. -/
def formC10c : Form :=
  ⟨[("title", ["Sunset"]), ("type", ["digital"]), ("categories", [""])], []⟩

theorem coordInv_init (units : List (Option String)) :
    CoordInv units (initCoord units) := by
  refine ⟨?_, ?_, ?_, ?_, ?_, ?_, ?_⟩ <;>
    simp [initCoord, CoordInv, List.nodup_range]

theorem coordInv_step {units : List (Option String)} {s t : CoordState}
    (hs : CoordInv units s) (hst : CoordStep units s t) : CoordInv units t := by
  obtain ⟨hnd, hlt, hlen, hsb, hm1, hm2, hm3⟩ := hs
  cases hst with
  | finishOk u hu ho =>
    refine ⟨hnd.erase u, ?_, ?_, hsb, hm1, hm2, hm3⟩
    · intro v hv
      exact hlt v (List.mem_of_mem_erase hv)
    · have h1 := List.length_erase_of_mem hu
      have h2 : 0 < s.pending.length := List.length_pos_of_mem hu
      simp only [h1]
      omega
  | finishErr u e hu ho hcap =>
    refine ⟨hnd.erase u, ?_, ?_, ?_, hm1, hm2, hm3⟩
    · intro v hv
      exact hlt v (List.mem_of_mem_erase hv)
    · have h1 := List.length_erase_of_mem hu
      have h2 : 0 < s.pending.length := List.length_pos_of_mem hu
      simp only [List.length_append, List.length_singleton, h1]
      omega
    · simp only [hsb, List.append_assoc]
  | closeChan hp hc =>
    exact ⟨hnd, hlt, hlen, hsb, hm1, hm2, hm3⟩
  | mainRecv e rest hm hb =>
    refine ⟨hnd, hlt, hlen, ?_, ?_, ?_, ?_⟩
    · simp only [hsb, hb, List.append_assoc, List.singleton_append]
    · intro h
      simp at h
    · intro h
      simp at h
    · intro e' h
      have he : e = e' := by
        simpa using h
      have hr := hm1 hm
      simp [hr, he]
  | mainClose hm hb hc =>
    refine ⟨hnd, hlt, hlen, hsb, ?_, ?_, ?_⟩
    · intro h
      simp at h
    · intro _
      exact hm1 hm
    · intro e' h
      simp at h

theorem coordInv_reach {units : List (Option String)} {s : CoordState}
    (h : CoordReach units s) : CoordInv units s := by
  induction h with
  | init => exact coordInv_init units
  | step _ hst ih => exact coordInv_step ih hst

/-- While at least one unit is still pending, the channel buffer has strictly
fewer than `units.length` entries; with at most five units this is strictly
below the capacity, so a pending unit's error send can never block. -/
theorem coord_buffer_lt {units : List (Option String)} {s : CoordState}
    (h5 : units.length ≤ errChanCapacity) (hr : CoordReach units s)
    {u : Nat} (hu : u ∈ s.pending) : s.buffer.length < errChanCapacity := by
  obtain ⟨hnd, hlt, hlen, hsb, _, _, _⟩ := coordInv_reach hr
  have hp : 0 < s.pending.length := List.length_pos_of_mem hu
  have hb : s.buffer.length ≤ s.sent.length := by
    simp [hsb]
  omega

/-! ## Worker-pool reassembly lemmas -/

/-- The function `processJob` stamps the result with its job's index, whatever the
outcome. -/
theorem processJob_index (upload : FileHeader → String → Except String String)
    (artworkID : UUID) (idx : Nat) (f : FileHeader) :
    (processJob upload artworkID idx f).index = idx := by
  unfold processJob
  rcases ValidateImageFile f with _ | _ <;>
    [skip; rcases upload f ("artworks/" ++ uuidString artworkID) with _ | _] <;>
    rfl

/-- The `i`-th per-job outcome is the job on the `i`-th file. -/
theorem jobResults_getElem? (upload : FileHeader → String → Except String String)
    (artworkID : UUID) (files : List FileHeader) (i : Nat) :
    (jobResults upload artworkID files)[i]? =
      (files[i]?).map (processJob upload artworkID i) := by
  unfold jobResults
  rw [List.getElem?_map, List.getElem?_enum]
  cases files[i]? <;> rfl

/-- The indices of the per-job outcomes are `0, 1, …, n-1` in order. -/
theorem jobResults_map_index (upload : FileHeader → String → Except String String)
    (artworkID : UUID) (files : List FileHeader) :
    (jobResults upload artworkID files).map (fun r => r.index) =
      List.range files.length := by
  unfold jobResults
  rw [List.map_map]
  have h : ((fun r => UploadResult.index r) ∘ fun p =>
      processJob upload artworkID p.1 p.2) = fun p : Nat × FileHeader => p.1 := by
    funext p
    exact processJob_index upload artworkID p.1 p.2
  rw [h]
  exact List.enum_map_fst files

/-- If no delivered result carries an error, the drain loop succeeds and the
url slice is the fold of the index-writes over the delivery order. -/
theorem drainResults_ok (rs : List UploadResult) :
    ∀ acc : List String, (∀ r ∈ rs, r.err = none) →
      drainResults acc rs =
        .ok (rs.foldl (fun a r => a.set r.index r.url) acc) := by
  induction rs with
  | nil => intro acc _; rfl
  | cons r rest ih =>
    intro acc h
    have hr : r.err = none := h r (List.mem_cons_self r rest)
    have hrest : ∀ x ∈ rest, x.err = none := fun x hx =>
      h x (List.mem_cons_of_mem r hx)
    simp only [drainResults, hr, List.foldl_cons]
    exact ih (acc.set r.index r.url) hrest

/-- Index-writes preserve the slice length. -/
theorem foldl_set_length (rs : List UploadResult) :
    ∀ acc : List String,
      (rs.foldl (fun a r => a.set r.index r.url) acc).length = acc.length := by
  induction rs with
  | nil => intro acc; rfl
  | cons r rest ih =>
    intro acc
    rw [List.foldl_cons, ih, List.length_set]

/-- A slot no delivered result writes keeps its value. -/
theorem foldl_set_getElem?_of_not_written (rs : List UploadResult) :
    ∀ (acc : List String) (i : Nat), (∀ r ∈ rs, r.index ≠ i) →
      (rs.foldl (fun a r => a.set r.index r.url) acc)[i]? = acc[i]? := by
  induction rs with
  | nil => intro acc i _; rfl
  | cons r rest ih =>
    intro acc i h
    rw [List.foldl_cons, ih _ i (fun x hx => h x (List.mem_cons_of_mem r hx))]
    exact List.getElem?_set_ne (h r (List.mem_cons_self r rest))

/-- With pairwise-distinct indices, the slot of a delivered result holds that
result's url after the fold, regardless of delivery order. -/
theorem foldl_set_getElem?_of_written (rs : List UploadResult) :
    ∀ (acc : List String) (r : UploadResult),
      (rs.map (fun x => x.index)).Nodup → r ∈ rs → r.index < acc.length →
      (rs.foldl (fun a x => a.set x.index x.url) acc)[r.index]? = some r.url := by
  induction rs with
  | nil => intro _ r _ hr _; simp at hr
  | cons x rest ih =>
    intro acc r hnd hr hlen
    have hnd' : (rest.map (fun y => y.index)).Nodup := (List.nodup_cons.mp hnd).2
    rw [List.foldl_cons]
    rcases List.mem_cons.mp hr with heq | hmem
    · subst heq
      have hni : ∀ y ∈ rest, y.index ≠ r.index := by
        intro y hy hcon
        have hmem : y.index ∈ List.map (fun z : UploadResult => z.index) rest :=
          List.mem_map_of_mem (fun z : UploadResult => z.index) hy
        rw [hcon] at hmem
        exact (List.nodup_cons.mp hnd).1 hmem
      rw [foldl_set_getElem?_of_not_written rest _ r.index hni]
      exact List.getElem?_set_self hlen
    · exact ih _ r hnd' hmem (by rw [List.length_set]; exact hlen)

/-- Main reassembly lemma: whatever order the results channel delivers the
per-job outcomes in, if none carries an error the url slice comes out in
original submission order, with slot `i` holding the upload url of file
`i`. -/
theorem uploadImagesConcurrently_perm_ok
    (upload : FileHeader → String → Except String String) (artworkID : UUID)
    (files : List FileHeader) (results : List UploadResult)
    (hperm : results.Perm (jobResults upload artworkID files))
    (hok : ∀ r ∈ jobResults upload artworkID files, r.err = none) :
    uploadImagesConcurrently files results =
      .ok (files.enum.map fun p => (processJob upload artworkID p.1 p.2).url) := by
  have hok' : ∀ r ∈ results, r.err = none := fun r hr =>
    hok r (hperm.mem_iff.mp hr)
  rw [uploadImagesConcurrently, drainResults_ok results _ hok']
  congr 1
  have hnd : (results.map (fun r => r.index)).Nodup := by
    have hpm := hperm.map (fun r => r.index)
    rw [jobResults_map_index] at hpm
    exact hpm.nodup_iff.mpr (List.nodup_range files.length)
  apply List.ext_getElem?
  intro i
  by_cases hi : i < files.length
  · obtain ⟨f, hf⟩ : ∃ f, files[i]? = some f :=
      ⟨files[i], List.getElem?_eq_getElem hi⟩
    have hjob : (jobResults upload artworkID files)[i]? =
        some (processJob upload artworkID i f) := by
      rw [jobResults_getElem?, hf]
      rfl
    have hmem : processJob upload artworkID i f ∈ jobResults upload artworkID files := by
      obtain ⟨hlt, hget⟩ := List.getElem?_eq_some.mp hjob
      exact hget ▸ List.getElem_mem hlt
    have hmem' : processJob upload artworkID i f ∈ results := hperm.mem_iff.mpr hmem
    have hidx : (processJob upload artworkID i f).index = i :=
      processJob_index upload artworkID i f
    have hw := foldl_set_getElem?_of_written results
      (List.replicate files.length "") (processJob upload artworkID i f) hnd hmem'
      (by rw [hidx, List.length_replicate]; exact hi)
    rw [hidx] at hw
    rw [hw, List.getElem?_map, List.getElem?_enum, hf]
    rfl
  · have h1 : (List.foldl (fun a r => a.set r.index r.url)
        (List.replicate files.length "") results).length ≤ i := by
      rw [foldl_set_length, List.length_replicate]
      omega
    have h2 : ((files.enum.map fun p =>
        (processJob upload artworkID p.1 p.2).url)).length ≤ i := by
      rw [List.length_map, List.enum_length]
      omega
    rw [List.getElem?_eq_none h1, List.getElem?_eq_none h2]

/-! ## processTags lemmas -/

/-- When every tag id parses, `processTags` bulk-inserts one row per id, in
order, referencing the artwork. -/
theorem processTags_ok (artworkID : UUID) (tagIDs : List String)
    (h : ∀ t ∈ tagIDs, (uuidParse t).isSome) :
    ∃ rows, processTags artworkID tagIDs = .ok rows ∧
      rows.length = tagIDs.length ∧
      (∀ r ∈ rows, r.artworkId = artworkID) ∧
      rows.map (fun r => r.tagId) = tagIDs.filterMap uuidParse := by
  induction tagIDs with
  | nil => exact ⟨[], rfl, rfl, by simp, by simp⟩
  | cons t rest ih =>
    have ht : (uuidParse t).isSome := h t (List.mem_cons_self t rest)
    obtain ⟨u, hu⟩ := Option.isSome_iff_exists.mp ht
    obtain ⟨rows, hrows, hlen, hart, hmap⟩ :=
      ih (fun x hx => h x (List.mem_cons_of_mem t hx))
    refine ⟨{ artworkId := artworkID, tagId := u } :: rows, ?_, ?_, ?_, ?_⟩
    · simp only [processTags, hu, hrows]
      rfl
    · simp [hlen]
    · intro r hr
      rcases List.mem_cons.mp hr with h1 | h2
      · rw [h1]
      · exact hart r h2
    · simp [hmap, List.filterMap_cons, hu]

/-- A single malformed tag id fails the whole unit with the
invalid-tag-format error, before anything is inserted. -/
theorem processTags_err (artworkID : UUID) (tagIDs : List String)
    (h : ∃ t ∈ tagIDs, uuidParse t = none) :
    ∃ e, processTags artworkID tagIDs = .error e := by
  induction tagIDs with
  | nil => simp at h
  | cons t rest ih =>
    by_cases ht : uuidParse t = none
    · exact ⟨"invalid tag ID format: " ++ t, by simp [processTags, ht]⟩
    · obtain ⟨x, hx, hxn⟩ := h
      rcases List.mem_cons.mp hx with h1 | h2
      · exact absurd (h1 ▸ hxn) ht
      · obtain ⟨e, he⟩ := ih ⟨x, h2, hxn⟩
        obtain ⟨u, hu⟩ := Option.ne_none_iff_exists'.mp ht
        refine ⟨e, ?_⟩
        simp only [processTags, hu, he]
        rfl

/-! ## C7 — per-file upload validation -/

/-- C7 counterexample: the claim says an empty file is rejected with an
`UploadRejected` client error; but `ValidateImageFile` accepts a zero-byte
file whose content type starts with `image/` — there is no emptiness
check. -/
theorem claim_C7_counterexample :
    (⟨"empty.png", 0, "image/png"⟩ : FileHeader).size = 0 ∧
    ValidateImageFile ⟨"empty.png", 0, "image/png"⟩ = .ok () := by
  exact ⟨rfl, by decide⟩

/-- C7 (amended): `ValidateImageFile` accepts a file exactly when its size is
at most the 5MB ceiling and its content type starts with `image/`; every
rejection is a 400 client error.  Emptiness is not checked. -/
theorem claim_C7_validate_exact (f : FileHeader) :
    (ValidateImageFile f = .ok () ↔
      f.size ≤ 5242880 ∧ goHasPfx f.contentType "image/" = true) ∧
    (∀ e, ValidateImageFile f = .error e → e.status = 400) := by
  unfold ValidateImageFile
  split_ifs with h1 h2
  · constructor
    · constructor
      · intro h
        cases h
      · intro h
        omega
    · intro e he
      have h := Except.error.inj he
      rw [← h]
  · constructor
    · constructor
      · intro _
        exact ⟨by omega, h2⟩
      · intro _
        rfl
    · intro e he
      cases he
  · constructor
    · constructor
      · intro h
        cases h
      · intro h
        simp [h2] at h
    · intro e he
      have h := Except.error.inj he
      rw [← h]

/-- C6 counterexample: the claim says a malformed `medium_id` fails the
pipeline with an `InvalidReference` client error; but the run succeeds and
persists the artwork with the medium reference silently dropped to null. -/
theorem claim_C6_counterexample :
    uuidParse "not-a-uuid" = none ∧
    (runCreateArtworkPipeline noFloat exFresh [] emptyDB exUser formC6).response =
      .ok () ∧
    (runCreateArtworkPipeline noFloat exFresh [] emptyDB exUser formC6).db.artworks.map
      (fun a => a.mediumId) = [none] := by
  refine ⟨by decide, by decide, by decide⟩

/-- C6 (amended): a `medium_id`/`technique_id` that fails to parse is
silently dropped by `parseUUIDPointer`, and `createArtwork` persists the row
with a null medium/technique reference instead of failing. -/
theorem claim_C6_medium_silently_dropped (db : DB) (freshId userId : UUID)
    (req : CreateArtworkRequest)
    (hm : uuidParse req.mediumID = none) (ht : uuidParse req.techniqueID = none)
    (hc : req.collectionID = "") (hd : req.creationDate = "") :
    parseUUIDPointer req.mediumID = none ∧
    ∃ row, createArtwork db freshId userId req = .ok row ∧
      row.mediumId = none ∧ row.techniqueId = none := by
  have hpm : parseUUIDPointer req.mediumID = none := by
    unfold parseUUIDPointer
    split_ifs
    · rfl
    · rw [hm]
  have hpt : parseUUIDPointer req.techniqueID = none := by
    unfold parseUUIDPointer
    split_ifs
    · rfl
    · rw [ht]
  have h1 : parseCollectionID db req.collectionID userId = .ok none := by
    rw [parseCollectionID, hc]
    rfl
  refine ⟨hpm, ?_⟩
  unfold createArtwork
  rw [h1, hd]
  simp only [ne_eq, not_true_eq_false, if_false, reduceIte]
  exact ⟨_, rfl, hpm, hpt⟩

/-! ## C2 — tags are all-or-nothing -/

/-- C2: with `N` tag id strings, if all parse then `processTags` bulk-inserts
exactly `N` `ArtworkTag` rows, each referencing the new artwork id (and in
submission order); if any fails to parse the whole unit errors before
inserting anything, so zero rows are produced. -/
theorem claim_C2_tags_all_or_nothing (artworkID : UUID) (tagIDs : List String) :
    ((∀ t ∈ tagIDs, (uuidParse t).isSome) →
      ∃ rows, processTags artworkID tagIDs = .ok rows ∧
        rows.length = tagIDs.length ∧
        (∀ r ∈ rows, r.artworkId = artworkID) ∧
        rows.map (fun r => r.tagId) = tagIDs.filterMap uuidParse) ∧
    ((∃ t ∈ tagIDs, uuidParse t = none) →
      ∃ e, processTags artworkID tagIDs = .error e) := by
  exact ⟨processTags_ok artworkID tagIDs, processTags_err artworkID tagIDs⟩

/-- C2 witness: two well-formed tag ids produce exactly two rows for the new
artwork; a batch containing one malformed id fails outright. -/
theorem claim_C2_witness :
    (∃ rows, processTags exFresh [uuidA, uuidB] = .ok rows ∧
      rows.length = 2 ∧ (∀ r ∈ rows, r.artworkId = exFresh)) ∧
    (∃ e, processTags exFresh [uuidA, "not-a-uuid"] = .error e) := by
  constructor
  · obtain ⟨rows, h1, h2, h3, _⟩ :=
      (claim_C2_tags_all_or_nothing exFresh [uuidA, uuidB]).1 (by decide)
    exact ⟨rows, h1, by simpa using h2, h3⟩
  · exact (claim_C2_tags_all_or_nothing exFresh [uuidA, "not-a-uuid"]).2
      ⟨"not-a-uuid", by decide, by decide⟩

/-! ## C3 — image rows in submission order, first primary -/

/-- C3: when every upload job succeeds, whatever order the workers deliver
results in, `processImages` produces exactly one `ArtworkImage` row per file,
in original submission order (the spec-side `specOrderedImageRows`, which
does not depend on the delivery order — determinism), and exactly the row of
original index 0 is primary. -/
theorem claim_C3_image_rows_ordered
    (upload : FileHeader → String → Except String String) (artworkID : UUID)
    (files : List FileHeader) (results : List UploadResult)
    (hperm : results.Perm (jobResults upload artworkID files))
    (hok : ∀ r ∈ jobResults upload artworkID files, r.err = none) :
    processImages artworkID files results =
      .ok (specOrderedImageRows upload artworkID files) ∧
    (specOrderedImageRows upload artworkID files).length = files.length ∧
    (∀ i, i < files.length →
      ((specOrderedImageRows upload artworkID files)[i]?.map fun r => r.isPrimary) =
        some (decide (i = 0))) := by
  refine ⟨?_, ?_, ?_⟩
  · unfold processImages
    rw [uploadImagesConcurrently_perm_ok upload artworkID files results hperm hok]
    dsimp only
    congr 1
    apply List.ext_getElem?
    intro i
    simp only [specOrderedImageRows, List.getElem?_map, List.getElem?_enum]
    cases files[i]? <;> rfl
  · simp [specOrderedImageRows, List.enum_length]
  · intro i hi
    have hf : files[i]? = some files[i] := List.getElem?_eq_getElem hi
    simp only [specOrderedImageRows, List.getElem?_map, List.getElem?_enum, hf]
    rfl

/-- C3 witness: with results delivered in reversed order, the rows still come
out in submission order with the first image primary. -/
theorem claim_C3_witness :
    processImages exFresh exFiles exResultsRev =
      .ok (specOrderedImageRows exUpload exFresh exFiles) ∧
    (specOrderedImageRows exUpload exFresh exFiles).length = 2 := by
  have h := claim_C3_image_rows_ordered exUpload exFresh exFiles exResultsRev
    (List.reverse_perm _) (by decide)
  exact ⟨h.1, by simpa using h.2.1⟩

/-! ## C8 — normalizer never fails; absent/failing coercions default -/

/-- C8: `parseFormData` succeeds on every form; an absent optional field
takes its zero value, and a numeric or boolean field whose value fails to
coerce silently keeps the zero value instead of erroring. -/
theorem claim_C8_lenient_normalizer (pf : String → Option Rat) (form : Form) :
    ∃ req, parseFormData pf form = .ok req ∧
      (form.getValue "weight" = [] → req.weight = 0) ∧
      (∀ w rest, form.getValue "weight" = w :: rest → pf w = none →
        req.weight = 0) ∧
      (form.getValue "price" = [] → req.price = 0) ∧
      (∀ p rest, form.getValue "price" = p :: rest → pf p = none →
        req.price = 0) ∧
      (form.getValue "edition_number" = [] → req.editionNumber = 0) ∧
      (∀ v rest, form.getValue "edition_number" = v :: rest → goAtoi v = none →
        req.editionNumber = 0) ∧
      (form.getValue "total_editions" = [] → req.totalEditions = 0) ∧
      (∀ v rest, form.getValue "total_editions" = v :: rest → goAtoi v = none →
        req.totalEditions = 0) ∧
      (form.getValue "is_for_sale" = [] → req.isForSale = false) ∧
      (∀ v rest, form.getValue "is_for_sale" = v :: rest → goToLower v ≠ "true" →
        req.isForSale = false) ∧
      (form.getValue "is_framed" = [] → req.isFramed = false) ∧
      (∀ v rest, form.getValue "is_framed" = v :: rest → goToLower v ≠ "true" →
        req.isFramed = false) ∧
      (form.getValue "tags" = [] → req.tags = []) ∧
      (form.getValue "categories" = [] → req.categories = []) ∧
      (form.getValue "title" = [] → req.title = "") := by
  refine ⟨_, rfl, ?_, ?_, ?_, ?_, ?_, ?_, ?_, ?_, ?_, ?_, ?_, ?_, ?_, ?_, ?_⟩
  · intro h
    simp only [h]
  · intro w rest h hn
    simp only [h, hn]
  · intro h
    simp only [h]
  · intro p rest h hn
    simp only [h, hn]
  · intro h
    simp only [h]
  · intro v rest h hn
    simp only [h, hn]
  · intro h
    simp only [h]
  · intro v rest h hn
    simp only [h, hn]
  · intro h
    simp only [h]
  · intro v rest h hn
    simp only [h, decide_eq_false hn]
  · intro h
    simp only [h]
  · intro v rest h hn
    simp only [h, decide_eq_false hn]
  · intro h
    simp only [h]
  · intro h
    simp only [h]
  · intro h
    simp only [h]

/-- C8 witness: on a form whose numeric and boolean values all fail to
coerce, parsing succeeds and every such field holds its zero value. -/
theorem claim_C8_witness :
    ∃ req, parseFormData noFloat formC8 = .ok req ∧ req.weight = 0 ∧
      req.price = 0 ∧ req.editionNumber = 0 ∧ req.totalEditions = 0 ∧
      req.isForSale = false ∧ req.isFramed = false ∧ req.tags = [] := by
  obtain ⟨req, hok, _, hw, _, hp, _, hen, _, hte, _, hifs, _, hifr, htags, _, _⟩ :=
    claim_C8_lenient_normalizer noFloat formC8
  exact ⟨req, hok,
    hw "heavy" [] (by decide) rfl,
    hp "cheap" [] (by decide) rfl,
    hen "x1" [] (by decide) (by decide),
    hte "y" [] (by decide) (by decide),
    hifs "yes" [] (by decide) (by decide),
    hifr "1" [] (by decide) (by decide),
    htags (by decide)⟩

/-! ## C9 — the error channel never blocks a unit -/

/-- The launched-unit outcomes never number more than the channel capacity:
the handler has exactly five conditional `go` statements. -/
theorem unitOutcomes_length_le (sched : List UploadResult) (artworkID : UUID)
    (req : CreateArtworkRequest) (files : List FileHeader) :
    (unitOutcomes sched artworkID req files).length ≤ errChanCapacity := by
  unfold unitOutcomes errChanCapacity
  split_ifs <;> simp

/-- C9: at most five units are launched, each sending at most one error
(one `CoordStep.finishErr` per unit), on a channel of capacity five; hence in
every reachable state with a unit still pending the buffer is strictly below
capacity, so no unit can ever block on its error send — even though the main
goroutine stops receiving after the first error. -/
theorem claim_C9_no_send_blocks (sched : List UploadResult) (artworkID : UUID)
    (req : CreateArtworkRequest) (files : List FileHeader) :
    (unitOutcomes sched artworkID req files).length ≤ errChanCapacity ∧
    (∀ s, CoordReach (unitOutcomes sched artworkID req files) s →
      ∀ u, u ∈ s.pending → s.buffer.length < errChanCapacity) := by
  refine ⟨unitOutcomes_length_le sched artworkID req files, ?_⟩
  intro s hr u hu
  exact coord_buffer_lt (unitOutcomes_length_le sched artworkID req files) hr hu

/-- C9 witness: at the initial state of the fan-out launched for
`reqOneTag`, the single tag unit is pending and the channel has room. -/
theorem claim_C9_witness :
    0 ∈ (initCoord (unitOutcomes [] exFresh reqOneTag [])).pending ∧
    (initCoord (unitOutcomes [] exFresh reqOneTag [])).buffer.length <
      errChanCapacity := by
  have h := (claim_C9_no_send_blocks [] exFresh reqOneTag []).2
    (initCoord (unitOutcomes [] exFresh reqOneTag [])) CoordReach.init 0 (by decide)
  exact ⟨by decide, h⟩

/-- C5 counterexample: the claim says the coordinator waits for every
launched unit to finish before draining the error channel.  In the channel
semantics of the handler there is a reachable state in which the main
goroutine has already decided the outcome (received the tag unit's error and
returned) while the category unit is still running: the coordinator drains
concurrently, not after the wait. -/
theorem claim_C5_counterexample :
    ∃ s, CoordReach unitsC5 s ∧ s.mainDone ≠ none ∧ s.pending ≠ [] := by
  refine ⟨_, CoordReach.step (CoordReach.step CoordReach.init
      (CoordStep.finishErr _ 0 tagErrC5 (by decide) (by decide) (by decide)))
      (CoordStep.mainRecv _ tagErrC5 [] (by decide) (by decide)), ?_, ?_⟩
  · decide
  · decide

/-- C5 (amended): the coordinator drains the channel concurrently with the
units and may return on the first received error while peers still run (see
the counterexample); what does hold is that the rollback cause is the first
error sent on the channel, and that no cancellation is propagated — any unit
still pending in a reachable state can always take the step that completes
it. -/
theorem claim_C5_first_error_wins_no_cancellation (sched : List UploadResult)
    (artworkID : UUID) (req : CreateArtworkRequest) (files : List FileHeader)
    (s : CoordState)
    (hr : CoordReach (unitOutcomes sched artworkID req files) s) :
    (∀ e, s.mainDone = some (some e) → s.sent.head? = some e) ∧
    (∀ u, u ∈ s.pending → ∃ t,
      CoordStep (unitOutcomes sched artworkID req files) s t ∧
        u ∉ t.pending) := by
  obtain ⟨hnd, hlt, hlen, hsb, hm1, hm2, hm3⟩ := coordInv_reach hr
  constructor
  · intro e he
    rw [hsb, hm3 e he]
    rfl
  · intro u hu
    have hu_lt := hlt u hu
    have hnm : u ∉ s.pending.erase u := fun hmem =>
      ((hnd.mem_erase_iff).mp hmem).1 rfl
    obtain ⟨o, ho⟩ : ∃ o, (unitOutcomes sched artworkID req files)[u]? = some o :=
      ⟨_, List.getElem?_eq_getElem hu_lt⟩
    cases o with
    | none => exact ⟨_, CoordStep.finishOk _ u hu ho, hnm⟩
    | some e =>
      have hcap : s.buffer.length < errChanCapacity :=
        coord_buffer_lt (unitOutcomes_length_le sched artworkID req files) hr hu
      exact ⟨_, CoordStep.finishErr _ u e hu ho hcap, hnm⟩

/-- C5 amended-theorem witness: at the initial state of the C5 scenario, the
still-pending tag unit can take its completing step. -/
theorem claim_C5_witness :
    ∃ t, CoordStep unitsC5 (initCoord unitsC5) t ∧ 0 ∉ t.pending := by
  have h := claim_C5_first_error_wins_no_cancellation [] exFresh reqC5 []
    (initCoord unitsC5) CoordReach.init
  exact h.2 0 (by decide)

/-! ## C4 — which checks run before the transaction opens -/

/-- The collection-check event list has exactly two shapes. -/
theorem collectionCheckEvents_cases (req : CreateArtworkRequest) :
    collectionCheckEvents req = [] ∨
    collectionCheckEvents req = [Ev.collectionCheck] := by
  unfold collectionCheckEvents
  split
  · exact Or.inl rfl
  · split
    · exact Or.inl rfl
    · exact Or.inr rfl

/-- C4 counterexample: the claim says the collection-ownership check
completes before any transaction is opened; in this run the trace shows
`beginTx` strictly before `collectionCheck` — the ownership query runs inside
the already-open transaction. -/
theorem claim_C4_counterexample :
    Ev.collectionCheck ∈
      (runCreateArtworkPipeline noFloat exFresh [] dbC4 exUser formC4).trace ∧
    (runCreateArtworkPipeline noFloat exFresh [] dbC4 exUser formC4).trace.indexOf
        Ev.beginTx <
      (runCreateArtworkPipeline noFloat exFresh [] dbC4 exUser formC4).trace.indexOf
        Ev.collectionCheck := by
  exact ⟨by decide, by decide⟩

/-- C4 (amended): the title/type/date validation runs before the transaction
opens and is pure — on a validation failure the database is untouched and no
`beginTx` is ever reached; the collection-ownership check, however, runs
strictly after `beginTx`, inside the open transaction. -/
theorem claim_C4_checks_vs_transaction (pf : String → Option Rat)
    (freshId : UUID) (sched : List UploadResult) (db : DB) (userId : UUID)
    (form : Form) (R : PipelineResult)
    (hR : runCreateArtworkPipeline pf freshId sched db userId form = R) :
    (Ev.beginTx ∈ R.trace →
      R.trace.indexOf Ev.validateReq < R.trace.indexOf Ev.beginTx) ∧
    (Ev.collectionCheck ∈ R.trace → Ev.beginTx ∈ R.trace ∧
      R.trace.indexOf Ev.beginTx < R.trace.indexOf Ev.collectionCheck) ∧
    (∀ req e, parseFormData pf form = .ok req →
      validateArtworkRequest req = .error e →
      R.db = db ∧ R.trace = [Ev.validateReq]) := by
  subst hR
  unfold runCreateArtworkPipeline
  rcases hpf : parseFormData pf form with e0 | req <;> dsimp only
  · refine ⟨fun h => absurd h (by decide), fun h => absurd h (by decide), ?_⟩
    intro req' e' hpe hve
    exact Except.noConfusion hpe
  · rcases hv : validateArtworkRequest req with e1 | u <;> dsimp only
    · refine ⟨fun h => absurd h (by decide), fun h => absurd h (by decide), ?_⟩
      intro req' e' hpe hve
      exact ⟨rfl, rfl⟩
    · have hval_ne : ∀ req' e' ,
          (Except.ok req : Except String CreateArtworkRequest) = Except.ok req' →
          validateArtworkRequest req' = .error e' → False := by
        intro req' e' hpe hve
        injection hpe with h
        rw [← h, hv] at hve
        exact Except.noConfusion hve
      rcases hart : createArtwork db freshId userId req with e2 | row <;> dsimp only
      · rcases collectionCheckEvents_cases req with hcce | hcce <;> rw [hcce]
        · exact ⟨fun _ => by decide, fun h => absurd h (by decide),
            fun req' e' hpe hve => absurd (hval_ne req' e' hpe hve) not_false⟩
        · exact ⟨fun _ => by decide, fun _ => ⟨by decide, by decide⟩,
            fun req' e' hpe hve => absurd (hval_ne req' e' hpe hve) not_false⟩
      · rcases houts : ((unitOutcomes sched freshId req
            (form.getFile "images")).filterMap id).head? with _ | e4 <;> dsimp only
        · rcases collectionCheckEvents_cases req with hcce | hcce <;> rw [hcce]
          · exact ⟨fun _ => by decide, fun h => absurd h (by decide),
              fun req' e' hpe hve => absurd (hval_ne req' e' hpe hve) not_false⟩
          · exact ⟨fun _ => by decide, fun _ => ⟨by decide, by decide⟩,
              fun req' e' hpe hve => absurd (hval_ne req' e' hpe hve) not_false⟩
        · rcases collectionCheckEvents_cases req with hcce | hcce <;> rw [hcce]
          · exact ⟨fun _ => by decide, fun h => absurd h (by decide),
              fun req' e' hpe hve => absurd (hval_ne req' e' hpe hve) not_false⟩
          · exact ⟨fun _ => by decide, fun _ => ⟨by decide, by decide⟩,
              fun req' e' hpe hve => absurd (hval_ne req' e' hpe hve) not_false⟩

/-- The editions unit cannot fail. -/
theorem errOf_processEditions (artworkID : UUID) (editionNumber totalEditions : Int) :
    errOf (processEditions artworkID editionNumber totalEditions) = none := rfl

/-- C1: if the run reaches the fan-out and any launched unit fails, the final
database is exactly the initial one — the rollback discards the root
`Artwork` insert and every association row — and the response is not a
success. -/
theorem claim_C1_rollback_reaches_root (pf : String → Option Rat)
    (freshId : UUID) (sched : List UploadResult) (db : DB) (userId : UUID)
    (form : Form) (req : CreateArtworkRequest) (row : ArtworkRow)
    (hreq : parseFormData pf form = .ok req)
    (hval : validateArtworkRequest req = .ok ())
    (hart : createArtwork db freshId userId req = .ok row)
    (hfail : ∃ o ∈ unitOutcomes sched freshId req (form.getFile "images"),
      o.isSome = true)
    (hno : noTraceOf db freshId) :
    (runCreateArtworkPipeline pf freshId sched db userId form).db = db ∧
    (runCreateArtworkPipeline pf freshId sched db userId form).response ≠
      .ok () ∧
    noTraceOf (runCreateArtworkPipeline pf freshId sched db userId form).db
      freshId := by
  obtain ⟨o, ho, hs⟩ := hfail
  have hne : (unitOutcomes sched freshId req (form.getFile "images")).filterMap
      id ≠ [] := by
    intro hnil
    have h0 := List.filterMap_eq_nil_iff.mp hnil o ho
    rw [show id o = o from rfl] at h0
    rw [h0] at hs
    exact Bool.noConfusion hs
  obtain ⟨e, rest, hcons⟩ := List.exists_cons_of_ne_nil hne
  have he : ((unitOutcomes sched freshId req
      (form.getFile "images")).filterMap id).head? = some e := by
    rw [hcons]
    rfl
  unfold runCreateArtworkPipeline
  rw [hreq]
  dsimp only
  rw [hval]
  dsimp only
  rw [hart]
  dsimp only
  rw [he]
  dsimp only
  refine ⟨rfl, fun h => Except.noConfusion h, hno⟩

/-- C1 witness: on the failing-tag run the database is untouched and in
particular holds no trace of the would-be artwork. -/
theorem claim_C1_witness :
    (runCreateArtworkPipeline noFloat exFresh [] emptyDB exUser formC1).db =
      emptyDB ∧
    noTraceOf (runCreateArtworkPipeline noFloat exFresh [] emptyDB exUser
      formC1).db exFresh := by
  have h := claim_C1_rollback_reaches_root noFloat exFresh [] emptyDB exUser
    formC1 reqC1 rowC1 (by decide) (by decide) (by decide)
    ⟨some "invalid tag ID format: not-a-uuid", by decide, by decide⟩
    (by decide)
  exact ⟨h.1, h.2.2⟩

/-- If the run reaches the fan-out and any launched unit fails, the pipeline
rolls back — the database is untouched — and the response is a 500 error
carrying some failing unit's message (which one is scheduling-dependent in
the handler when several units fail). -/
theorem pipeline_rolls_back_of_unit_error (pf : String → Option Rat)
    (freshId : UUID) (sched : List UploadResult) (db : DB) (userId : UUID)
    (form : Form) (req : CreateArtworkRequest) (row : ArtworkRow)
    (hreq : parseFormData pf form = .ok req)
    (hval : validateArtworkRequest req = .ok ())
    (hart : createArtwork db freshId userId req = .ok row)
    (hfail : ∃ o ∈ unitOutcomes sched freshId req (form.getFile "images"),
      o.isSome = true) :
    (runCreateArtworkPipeline pf freshId sched db userId form).db = db ∧
    ∃ msg, (runCreateArtworkPipeline pf freshId sched db userId form).response =
      .error ⟨500, msg⟩ := by
  obtain ⟨o, ho, hs⟩ := hfail
  have hne : (unitOutcomes sched freshId req (form.getFile "images")).filterMap
      id ≠ [] := by
    intro hnil
    have h0 := List.filterMap_eq_nil_iff.mp hnil o ho
    rw [show id o = o from rfl] at h0
    rw [h0] at hs
    exact Bool.noConfusion hs
  obtain ⟨e, rest, hcons⟩ := List.exists_cons_of_ne_nil hne
  have he : ((unitOutcomes sched freshId req
      (form.getFile "images")).filterMap id).head? = some e := by
    rw [hcons]
    rfl
  unfold runCreateArtworkPipeline
  rw [hreq]
  dsimp only
  rw [hval]
  dsimp only
  rw [hart]
  dsimp only
  rw [he]
  dsimp only
  exact ⟨rfl, e, rfl⟩

/-- C10: a `tags` or `categories` field submitted with the empty string
normalizes to the one-element list `[""]` (not the empty list), so the
corresponding fan-out unit launches and fails to parse the empty id with its
invalid-reference error, and the whole pipeline rolls back: the database is
untouched and the response is a 500 error.  Which failing unit's message the
500 carries is scheduling-dependent in the handler when several units fail,
so the exact message is pinned only at the unit level. -/
theorem claim_C10_present_empty_list_field (pf : String → Option Rat)
    (freshId : UUID) (sched : List UploadResult) (db : DB) (userId : UUID)
    (form : Form) (req : CreateArtworkRequest) (row : ArtworkRow)
    (hfield : form.getValue "tags" = [""] ∨ form.getValue "categories" = [""])
    (hreq : parseFormData pf form = .ok req)
    (hval : validateArtworkRequest req = .ok ())
    (hart : createArtwork db freshId userId req = .ok row) :
    (form.getValue "tags" = [""] → req.tags = [""] ∧ req.tags ≠ [] ∧
      processTags freshId req.tags = .error "invalid tag ID format: ") ∧
    (form.getValue "categories" = [""] → req.categories = [""] ∧
      req.categories ≠ [] ∧
      processCategories freshId req.categories =
        .error "invalid category ID format: ") ∧
    (runCreateArtworkPipeline pf freshId sched db userId form).db = db ∧
    ∃ msg, (runCreateArtworkPipeline pf freshId sched db userId form).response =
      .error ⟨500, msg⟩ := by
  have h2 := Except.ok.inj hreq.symm
  have htagsOf : form.getValue "tags" = [""] → req.tags = [""] := by
    intro ht
    rw [h2]
    show (match form.getValue "tags" with
      | t :: _ => goSplitComma t | [] => []) = [""]
    rw [ht]
    rfl
  have hcatsOf : form.getValue "categories" = [""] → req.categories = [""] := by
    intro hc
    rw [h2]
    show (match form.getValue "categories" with
      | c :: _ => goSplitComma c | [] => []) = [""]
    rw [hc]
    rfl
  have hpt0 : processTags freshId ([""] : List String) =
      .error "invalid tag ID format: " := by
    simp only [processTags, show uuidParse "" = (none : Option UUID) from rfl]
    decide
  have hpc0 : processCategories freshId ([""] : List String) =
      .error "invalid category ID format: " := by
    simp only [processCategories,
      show uuidParse "" = (none : Option UUID) from rfl]
    decide
  have hfail : ∃ o ∈ unitOutcomes sched freshId req (form.getFile "images"),
      o.isSome = true := by
    rcases hfield with ht | hc
    · refine ⟨some "invalid tag ID format: ", ?_, rfl⟩
      unfold unitOutcomes
      rw [htagsOf ht, hpt0]
      exact List.mem_append_left _ (List.mem_append_left _
        (List.mem_append_left _ (List.mem_append_right _ (by decide))))
    · refine ⟨some "invalid category ID format: ", ?_, rfl⟩
      unfold unitOutcomes
      rw [hcatsOf hc, hpc0]
      exact List.mem_append_left _ (List.mem_append_left _
        (List.mem_append_right _ (by decide)))
  obtain ⟨hdb, hresp⟩ := pipeline_rolls_back_of_unit_error pf freshId sched db
    userId form req row hreq hval hart hfail
  refine ⟨?_, ?_, hdb, hresp⟩
  · intro ht
    refine ⟨htagsOf ht, ?_, ?_⟩
    · rw [htagsOf ht]
      decide
    · rw [htagsOf ht]
      exact hpt0
  · intro hc
    refine ⟨hcatsOf hc, ?_, ?_⟩
    · rw [hcatsOf hc]
      decide
    · rw [hcatsOf hc]
      exact hpc0

/-- C10 witness: both concrete present-but-empty runs — one with the tags
field empty, one with the categories field empty — roll back with a 500
error. -/
theorem claim_C10_witness :
    (reqC10.tags = [""] ∧
      (runCreateArtworkPipeline noFloat exFresh [] emptyDB exUser formC10).db =
        emptyDB ∧
      ∃ msg, (runCreateArtworkPipeline noFloat exFresh [] emptyDB exUser
        formC10).response = .error ⟨500, msg⟩) ∧
    (reqC10c.categories = [""] ∧
      (runCreateArtworkPipeline noFloat exFresh [] emptyDB exUser formC10c).db =
        emptyDB ∧
      ∃ msg, (runCreateArtworkPipeline noFloat exFresh [] emptyDB exUser
        formC10c).response = .error ⟨500, msg⟩) := by
  constructor
  · have h := claim_C10_present_empty_list_field noFloat exFresh [] emptyDB
      exUser formC10 reqC10 rowC1 (Or.inl (by decide)) (by decide) (by decide)
      (by decide)
    exact ⟨(h.1 (by decide)).1, h.2.2.1, h.2.2.2⟩
  · have h := claim_C10_present_empty_list_field noFloat exFresh [] emptyDB
      exUser formC10c reqC10c rowC1 (Or.inr (by decide)) (by decide) (by decide)
      (by decide)
    exact ⟨(h.2.1 (by decide)).1, h.2.2.1, h.2.2.2⟩

/-- C4 amended-theorem witness: on the concrete collection-referencing run,
validation precedes `beginTx` in the trace. -/
theorem claim_C4_witness :
    (runCreateArtworkPipeline noFloat exFresh [] dbC4 exUser formC4).trace.indexOf
        Ev.validateReq <
      (runCreateArtworkPipeline noFloat exFresh [] dbC4 exUser formC4).trace.indexOf
        Ev.beginTx :=
  (claim_C4_checks_vs_transaction noFloat exFresh [] dbC4 exUser formC4 _
    rfl).1 (by decide)

/-- C6 amended-theorem witness: the concrete malformed-medium request yields
a persisted row with null medium and technique references. -/
theorem claim_C6_witness :
    ∃ row, createArtwork emptyDB exFresh exUser reqC6m = .ok row ∧
      row.mediumId = none ∧ row.techniqueId = none := by
  have h := claim_C6_medium_silently_dropped emptyDB exFresh exUser reqC6m
    (by decide) (by decide) rfl rfl
  exact h.2

/-- C7 amended-theorem witness: a small image file passes validation, and an
oversized one is rejected with a 400 error. -/
theorem claim_C7_witness :
    ValidateImageFile ⟨"ok.png", 5, "image/png"⟩ = .ok () ∧
    ∃ e, ValidateImageFile ⟨"big.png", 9999999, "image/png"⟩ = .error e ∧
      e.status = 400 := by
  constructor
  · exact (claim_C7_validate_exact ⟨"ok.png", 5, "image/png"⟩).1.mpr
      ⟨by decide, by decide⟩
  · refine ⟨⟨400, "Image too large, maximum size is 5MB"⟩, by decide, ?_⟩
    exact (claim_C7_validate_exact ⟨"big.png", 9999999, "image/png"⟩).2
      ⟨400, "Image too large, maximum size is 5MB"⟩ (by decide)

end ArtsMarket
